import Mathlib

/-!
Shallow embedding of the core section-detection pipeline of the `flint`
repository (`src/section_detector.py`), i.e. the components
Significance Filter → Section Clusterer → Section Merger →
Section Classifier → Section Entity Builder, together with proofs about it.

Modelling conventions:
- JavaScript/Python floating-point geometry is modelled by exact rational
  numbers.  All thresholds in the source are integers except the literal
  `0.4`, modelled as `2/5`.  A bespoke rational type `Q` (integer numerator,
  positive integer denominator) is used instead of `Rat` so that every
  arithmetic operation and comparison is structurally recursive and hence
  computes by kernel reduction; `Q.val` interprets `Q` into Mathlib's `ℚ`
  and all order reasoning is carried out through that interpretation.
- Python dicts carrying fixed keys are modelled as structures.
- Python's stable `sorted(..., key=top)` is modelled by `List.insertionSort`,
  which is likewise stable (ties keep their input order), so it computes the
  same list.
- Python `str.strip`, `str.lower`, `len`, slicing `[:200]`, and substring
  membership `in` are modelled by `pyStrip`, `pyLower`, `String.length`,
  `String.take` and char-list infix containment.
- The mutable scan of `_group_elements_into_sections` is modelled by a fold
  over an explicit `ClusterState`.
- In `_merge_close_sections` the Python code takes a shallow `dict.copy()` of
  `sections[i]`, so the merged section shares its `bounds` dict with
  `current`; the inner-loop gap is therefore computed against the *growing*
  merged bounds.  `mergeLoop` reproduces exactly that observable behaviour
  (gap measured against the bottom edge of the last merged member).
-/

/-- Exact rational number: integer numerator over positive integer
denominator.  Not normalised; equality of denoted values is `Q.beq`. -/
structure Q where
  num : Int
  den : Int
  den_pos : 0 < den

instance : DecidableEq Q := fun a b =>
  decidable_of_iff (a.num = b.num ∧ a.den = b.den) (by cases a; cases b; simp)

instance : Repr Q := ⟨fun a _ => repr (a.num, a.den)⟩

instance (n : Nat) : OfNat Q n := ⟨⟨(n : Int), 1, one_pos⟩⟩

/-- Addition on `Q`. -/
def Q.add (a b : Q) : Q :=
  ⟨a.num * b.den + b.num * a.den, a.den * b.den, mul_pos a.den_pos b.den_pos⟩

/-- Subtraction on `Q`. -/
def Q.sub (a b : Q) : Q :=
  ⟨a.num * b.den - b.num * a.den, a.den * b.den, mul_pos a.den_pos b.den_pos⟩

/-- Multiplication on `Q`. -/
def Q.mul (a b : Q) : Q :=
  ⟨a.num * b.num, a.den * b.den, mul_pos a.den_pos b.den_pos⟩

/-- Division on `Q` (division by zero yields zero, as in `ℚ`). -/
def Q.div (a b : Q) : Q :=
  if h : 0 < b.num then ⟨a.num * b.den, a.den * b.num, mul_pos a.den_pos h⟩
  else if h' : b.num < 0 then
    ⟨-(a.num * b.den), a.den * -b.num, mul_pos a.den_pos (neg_pos.mpr h')⟩
  else ⟨0, 1, one_pos⟩

/-- Negation on `Q`. -/
def Q.neg (a : Q) : Q := ⟨-a.num, a.den, a.den_pos⟩

instance : Add Q := ⟨Q.add⟩
instance : Sub Q := ⟨Q.sub⟩
instance : Mul Q := ⟨Q.mul⟩
instance : Div Q := ⟨Q.div⟩
instance : Neg Q := ⟨Q.neg⟩

/-- Value-level `≤`, by cross multiplication (denominators are positive). -/
def Q.ble (a b : Q) : Bool := decide (a.num * b.den ≤ b.num * a.den)

/-- Value-level `<`, by cross multiplication. -/
def Q.blt (a b : Q) : Bool := decide (a.num * b.den < b.num * a.den)

/-- Value-level equality, by cross multiplication. -/
def Q.beq (a b : Q) : Bool := decide (a.num * b.den = b.num * a.den)

instance : LE Q := ⟨fun a b => Q.ble a b = true⟩
instance : LT Q := ⟨fun a b => Q.blt a b = true⟩

instance (a b : Q) : Decidable (a ≤ b) := inferInstanceAs (Decidable (_ = true))
instance (a b : Q) : Decidable (a < b) := inferInstanceAs (Decidable (_ = true))

/-- Python's binary `min` (returns the first argument on ties). -/
instance : Min Q := ⟨fun a b => if a ≤ b then a else b⟩

/-- Python's binary `max` (returns the first argument on ties). -/
instance : Max Q := ⟨fun a b => if b ≤ a then a else b⟩

/-- Python's `abs`. -/
def Q.qabs (a : Q) : Q := ⟨|a.num|, a.den, a.den_pos⟩

/-- Interpretation of `Q` into Mathlib's rationals; the semantics of the
representation.  All arithmetic/order facts about `Q` are proved through it. -/
def Q.val (a : Q) : ℚ := (a.num : ℚ) / (a.den : ℚ)

theorem Q.den_cast_pos (a : Q) : (0 : ℚ) < (a.den : ℚ) := by
  exact_mod_cast a.den_pos

theorem Q.den_cast_ne (a : Q) : (a.den : ℚ) ≠ 0 := a.den_cast_pos.ne'

theorem Q.le_iff (a b : Q) : a ≤ b ↔ a.val ≤ b.val := by
  show Q.ble a b = true ↔ _
  rw [Q.ble, decide_eq_true_eq, Q.val, Q.val,
    div_le_div_iff a.den_cast_pos b.den_cast_pos]
  exact_mod_cast Iff.rfl

theorem Q.lt_iff (a b : Q) : a < b ↔ a.val < b.val := by
  show Q.blt a b = true ↔ _
  rw [Q.blt, decide_eq_true_eq, Q.val, Q.val,
    div_lt_div_iff a.den_cast_pos b.den_cast_pos]
  exact_mod_cast Iff.rfl

theorem Q.beq_iff (a b : Q) : Q.beq a b = true ↔ a.val = b.val := by
  rw [Q.beq, decide_eq_true_eq, Q.val, Q.val,
    div_eq_div_iff a.den_cast_ne b.den_cast_ne]
  exact_mod_cast Iff.rfl

theorem Q.val_add (a b : Q) : (a + b).val = a.val + b.val := by
  show (Q.add a b).val = _
  rw [Q.add, Q.val, Q.val, Q.val]
  have ha := a.den_cast_ne; have hb := b.den_cast_ne
  push_cast
  field_simp

theorem Q.val_sub (a b : Q) : (a - b).val = a.val - b.val := by
  show (Q.sub a b).val = _
  rw [Q.sub, Q.val, Q.val, Q.val]
  have ha := a.den_cast_ne; have hb := b.den_cast_ne
  push_cast
  field_simp
  ring

theorem Q.val_mul (a b : Q) : (a * b).val = a.val * b.val := by
  show (Q.mul a b).val = _
  rw [Q.mul, Q.val, Q.val, Q.val]
  push_cast
  rw [div_mul_div_comm]

theorem Q.val_div (a b : Q) : (a / b).val = a.val / b.val := by
  show (Q.div a b).val = _
  by_cases h : 0 < b.num
  · rw [Q.div, dif_pos h, Q.val, Q.val, Q.val]
    have ha := a.den_cast_ne; have hb := b.den_cast_ne
    have hn : ((b.num : ℚ)) ≠ 0 := by exact_mod_cast h.ne'
    push_cast
    field_simp
  · by_cases h' : b.num < 0
    · rw [Q.div, dif_neg h, dif_pos h', Q.val, Q.val, Q.val]
      have ha := a.den_cast_ne; have hb := b.den_cast_ne
      have hn : ((b.num : ℚ)) ≠ 0 := by exact_mod_cast h'.ne
      push_cast
      field_simp
    · have hz : b.num = 0 := le_antisymm (not_lt.mp h) (not_lt.mp h')
      rw [Q.div, dif_neg h, dif_neg h', Q.val, Q.val, Q.val, hz]
      simp

theorem Q.val_min (a b : Q) : (min a b).val = min a.val b.val := by
  show (if a ≤ b then a else b).val = _
  by_cases h : a ≤ b
  · rw [if_pos h, min_eq_left ((Q.le_iff a b).mp h)]
  · rw [if_neg h]
    have : b.val ≤ a.val := le_of_lt (by
      have := (Q.le_iff a b).not.mp h
      exact lt_of_not_le this)
    rw [min_eq_right this]

theorem Q.val_max (a b : Q) : (max a b).val = max a.val b.val := by
  show (if b ≤ a then a else b).val = _
  by_cases h : b ≤ a
  · rw [if_pos h, max_eq_left ((Q.le_iff b a).mp h)]
  · rw [if_neg h]
    have : a.val ≤ b.val := le_of_lt (by
      have := (Q.le_iff b a).not.mp h
      exact lt_of_not_le this)
    rw [max_eq_right this]

theorem Q.val_qabs (a : Q) : a.qabs.val = |a.val| := by
  rw [Q.qabs, Q.val, Q.val, abs_div, abs_of_pos a.den_cast_pos]
  norm_cast

theorem Q.val_ofNat (n : Nat) : (OfNat.ofNat n : Q).val = (n : ℚ) := by
  show ((n : Int) : ℚ) / ((1 : Int) : ℚ) = _
  norm_num

theorem Q.le_refl (a : Q) : a ≤ a := (Q.le_iff a a).mpr le_rfl

theorem Q.le_trans {a b c : Q} (h₁ : a ≤ b) (h₂ : b ≤ c) : a ≤ c :=
  (Q.le_iff a c).mpr (((Q.le_iff a b).mp h₁).trans ((Q.le_iff b c).mp h₂))

theorem Q.le_total (a b : Q) : a ≤ b ∨ b ≤ a :=
  (le_or_lt a.val b.val).imp (Q.le_iff a b).mpr
    (fun h => (Q.le_iff b a).mpr h.le)

theorem Q.min_le_left (a b : Q) : min a b ≤ a :=
  (Q.le_iff _ _).mpr (by rw [Q.val_min]; exact inf_le_left)

theorem Q.min_le_right (a b : Q) : min a b ≤ b :=
  (Q.le_iff _ _).mpr (by rw [Q.val_min]; exact inf_le_right)

theorem Q.le_min {a b c : Q} (h₁ : a ≤ b) (h₂ : a ≤ c) : a ≤ min b c :=
  (Q.le_iff _ _).mpr (by
    rw [Q.val_min]
    exact le_inf ((Q.le_iff a b).mp h₁) ((Q.le_iff a c).mp h₂))

theorem Q.le_max_left (a b : Q) : a ≤ max a b :=
  (Q.le_iff _ _).mpr (by rw [Q.val_max]; exact le_sup_left)

theorem Q.le_max_right (a b : Q) : b ≤ max a b :=
  (Q.le_iff _ _).mpr (by rw [Q.val_max]; exact le_sup_right)

/-- Python `str.strip()`: drop leading and trailing whitespace. -/
def pyStrip (s : String) : String :=
  ⟨((s.toList.dropWhile Char.isWhitespace).reverse.dropWhile
      Char.isWhitespace).reverse⟩

/-- Python `str.lower()`. -/
def pyLower (s : String) : String := ⟨s.toList.map Char.toLower⟩

/-- Python `needle in haystack` on strings: substring containment. -/
def containsSubstr (s pat : String) : Bool :=
  decide (pat.toList <:+: s.toList)

/-- Viewport geometry of one rendered element (`rect` in the source).  The
source also carries `bottom`/`right`, which the core never reads; they are
omitted. -/
structure Rect where
  top : Q
  left : Q
  width : Q
  height : Q
deriving Repr, DecidableEq

/-- Computed style summary of one element (`styles` in the source). -/
structure Style where
  backgroundColor : String
  marginTop : Int
  marginBottom : Int
  paddingTop : Int
  paddingBottom : Int
  borderTop : String
  borderBottom : String
  display : String
  visibility : String
  position : String
deriving Repr, DecidableEq

/-- One element descriptor handed to the core by the renderer collaborator. -/
structure ElementRecord where
  tagName : String
  textContent : String
  outerHTML : String
  rect : Rect
  styles : Style
  hasImages : Bool
  hasVideos : Bool
deriving Repr, DecidableEq

/-- A running bounding box (`bounds` dict in the source). -/
structure Bounds where
  top : Q
  left : Q
  width : Q
  height : Q
deriving Repr, DecidableEq

/-- The mutable section dict built during clustering. -/
structure ProvisionalSection where
  id : Nat
  bounds : Bounds
  elements : List String
  elementCount : Nat
  content : String
  hasImages : Bool
  hasVideos : Bool
deriving Repr, DecidableEq

/-- The `metadata` dict of an output section. -/
structure SectionMetadata where
  hasImages : Bool
  hasVideos : Bool
  elementCount : Nat
deriving Repr, DecidableEq

/-- The output entity (`Section` dataclass in `src/section.py`). -/
structure Section where
  id : Nat
  type : String
  content : String
  html_elements : List String
  bounds : Bounds
  metadata : SectionMetadata
deriving Repr, DecidableEq

/-- Significance Filter (`_group_elements_into_sections`, lines 154-179):
the three `continue` conditions, negated. -/
def significant (e : ElementRecord) : Bool :=
  if e.rect.width < 80 ∨ e.rect.height < 40 then false
  else if pyStrip e.textContent = "" ∧ ¬e.hasImages ∧ ¬e.hasVideos then false
  else if (pyStrip e.textContent).length < 10 ∧ ¬e.hasImages ∧ ¬e.hasVideos then
    false
  else true

/-- Sort relation used at line 185: ascending `rect.top` (stable). -/
def topOrder (a b : ElementRecord) : Prop := a.rect.top ≤ b.rect.top

instance : DecidableRel topOrder := fun a b =>
  decidable_of_iff (a.rect.top ≤ b.rect.top) Iff.rfl

instance : IsTotal ElementRecord topOrder :=
  ⟨fun a b => Q.le_total a.rect.top b.rect.top⟩

instance : IsTrans ElementRecord topOrder :=
  ⟨fun _ _ _ hab hbc => Q.le_trans hab hbc⟩

/-- `_has_significant_styling` (lines 373-383). -/
def hasSignificantStyling (styles : Style) : Bool :=
  decide (styles.marginTop > 20) || decide (styles.marginBottom > 20) ||
  decide (styles.paddingTop > 20) || decide (styles.paddingBottom > 20) ||
  !(styles.backgroundColor == "rgba(0, 0, 0, 0)" ||
    styles.backgroundColor == "transparent") ||
  !(styles.borderTop == "0px none") || !(styles.borderBottom == "0px none")

/-- The `should_start_new_section` decision for an open section
(lines 198-234): gap trigger, moderate-gap/horizontal-divergence trigger,
media-discontinuity trigger, styling trigger, combined by OR. -/
def shouldStartNew (cur : ProvisionalSection) (e : ElementRecord) : Bool :=
  let currentBottom := cur.bounds.top + cur.bounds.height
  let gap := e.rect.top - currentBottom
  let gapTrigger : Bool :=
    if gap > 100 then true
    else if gap > 50 then
      let currentCenter := cur.bounds.left + cur.bounds.width / 2
      let elementCenter := e.rect.left + e.rect.width / 2
      decide (Q.qabs (currentCenter - elementCenter) >
        max e.rect.width cur.bounds.width * (2 / 5))
    else false
  let currentHasMedia := cur.hasImages || cur.hasVideos
  let elementHasMedia := e.hasImages || e.hasVideos
  let mediaTrigger := (currentHasMedia != elementHasMedia) &&
    (!(pyStrip e.textContent == "") || elementHasMedia)
  gapTrigger || mediaTrigger || hasSignificantStyling e.styles

/-- Freeze rule for an open section (lines 238-244 and 308-314):
kept only with more than 30 stripped characters of content or media. -/
def keepSection (s : ProvisionalSection) : Bool :=
  decide ((pyStrip s.content).length > 30) || s.hasImages || s.hasVideos

/-- A fresh section opened from one element (lines 247-260). -/
def newSection (idx : Nat) (e : ElementRecord) : ProvisionalSection :=
  { id := idx
    bounds := { top := e.rect.top, left := e.rect.left,
                width := e.rect.width, height := e.rect.height }
    elements := [e.outerHTML]
    elementCount := 1
    content := pyStrip e.textContent
    hasImages := e.hasImages
    hasVideos := e.hasVideos }

/-- The per-element substantiality re-check guarding a fold
(lines 265-273): strict `> 80` / `> 40`, unlike the Filter's `>= 80 / >= 40`. -/
def substantialForFold (e : ElementRecord) : Bool :=
  decide (e.rect.width > 80) && decide (e.rect.height > 40) &&
  (!(pyStrip e.textContent == "") || e.hasImages || e.hasVideos)

/-- Folding one element into the open section (lines 263-305): substantiality
re-check, markup de-duplication, bounds expansion (width/height computed
against the already-updated left/top), content append, media OR. -/
def foldElement (cur : ProvisionalSection) (e : ElementRecord) :
    ProvisionalSection :=
  if substantialForFold e then
    if e.outerHTML ∈ cur.elements then cur
    else
      let top := min cur.bounds.top e.rect.top
      let left := min cur.bounds.left e.rect.left
      { cur with
        elements := cur.elements ++ [e.outerHTML]
        elementCount := cur.elementCount + 1
        bounds :=
          { top := top, left := left
            width := max cur.bounds.width (e.rect.left + e.rect.width - left)
            height := max cur.bounds.height (e.rect.top + e.rect.height - top) }
        content :=
          if pyStrip e.textContent = "" then cur.content
          else cur.content ++ " " ++ pyStrip e.textContent
        hasImages := cur.hasImages || e.hasImages
        hasVideos := cur.hasVideos || e.hasVideos }
  else cur

/-- State of the clustering scan: frozen sections so far plus the open one. -/
structure ClusterState where
  sections : List ProvisionalSection
  current : Option ProvisionalSection
deriving Repr

/-- One iteration of the clustering loop (lines 190-305). -/
def clusterStep (st : ClusterState) (e : ElementRecord) : ClusterState :=
  let startNew : Bool :=
    match st.current with
    | none => true
    | some cur => shouldStartNew cur e
  if startNew then
    let secs :=
      match st.current with
      | some cur =>
          if decide (cur.elementCount > 0) && keepSection cur then
            st.sections ++ [cur]
          else st.sections
      | none => st.sections
    { sections := secs, current := some (newSection (secs.length + 1) e) }
  else
    match st.current with
    | some cur => { st with current := some (foldElement cur e) }
    | none => st

/-- The trailing freeze after the loop (lines 307-315). -/
def finalizeCluster (st : ClusterState) : List ProvisionalSection :=
  match st.current with
  | some cur =>
      if decide (cur.elementCount > 0) && keepSection cur then
        st.sections ++ [cur]
      else st.sections
  | none => st.sections

/-- Merging one section into its predecessor (lines 342-362).  `height` is
extended to the bottom edge of `nxt`, `width` is the max, elements are
concatenated without de-duplication, the count is recomputed, content is
space-joined, media flags OR. -/
def mergeTwo (cur nxt : ProvisionalSection) : ProvisionalSection :=
  { cur with
    bounds := { cur.bounds with
      height := nxt.bounds.top + nxt.bounds.height - cur.bounds.top
      width := max cur.bounds.width nxt.bounds.width }
    elements := cur.elements ++ nxt.elements
    elementCount := (cur.elements ++ nxt.elements).length
    content := cur.content ++ " " ++ nxt.content
    hasImages := cur.hasImages || nxt.hasImages
    hasVideos := cur.hasVideos || nxt.hasVideos }

/-- The scan of `_merge_close_sections` (lines 325-371), with `cur` the
accumulated `merged_section`.  Because the Python code takes a shallow
`dict.copy()`, the inner-loop gap is measured against the bottom edge of the
last section merged so far, i.e. against `cur`'s growing bounds. -/
def mergeLoop (cur : ProvisionalSection) :
    List ProvisionalSection → List ProvisionalSection
  | [] => [cur]
  | nxt :: rest =>
    if nxt.bounds.top - (cur.bounds.top + cur.bounds.height) < 30 then
      mergeLoop (mergeTwo cur nxt) rest
    else
      cur :: mergeLoop nxt rest

/-- `_merge_close_sections` (lines 320-371). -/
def mergeCloseSections : List ProvisionalSection → List ProvisionalSection
  | [] => []
  | s :: rest => mergeLoop s rest

/-- `_group_elements_into_sections` (lines 149-318): filter, stable sort by
top, clustering scan, trailing freeze, merge pass. -/
def groupElementsIntoSections (elements : List ElementRecord) :
    List ProvisionalSection :=
  if elements.isEmpty then []
  else
    let significantElements := elements.filter significant
    if significantElements.isEmpty then []
    else
      let sortedElements := List.insertionSort topOrder significantElements
      let st := sortedElements.foldl clusterStep ⟨[], none⟩
      mergeCloseSections (finalizeCluster st)

/-- `any(word in text for word in words)`. -/
def classKeyword (text : String) (words : List String) : Bool :=
  words.any (fun w => containsSubstr text w)

/-- `_classify_section` (lines 431-458). -/
def classifySection (sd : ProvisionalSection) : String :=
  let text := pyLower sd.content
  if decide (sd.bounds.top < 200) &&
      classKeyword text ["menu", "nav", "header", "navigation"] then "header"
  else if classKeyword text ["footer", "copyright", "privacy", "terms"] then
    "footer"
  else if decide (sd.bounds.height > 300) && (sd.hasImages || sd.hasVideos) then
    "hero"
  else if decide (sd.content.length > 100) then "content"
  else if decide (sd.bounds.width < 300) && decide (sd.bounds.height > 500) then
    "sidebar"
  else "section"

/-- The Entity Builder's drop test (lines 404-413). -/
def dropCheck (sd : ProvisionalSection) : Bool :=
  decide (sd.bounds.height < 30) || decide (sd.bounds.width < 100) ||
  (decide ((pyStrip sd.content).length < 10) && !sd.hasImages && !sd.hasVideos)

/-- Building one output entity (lines 415-426); `i` is the 0-based
`enumerate` index over the Builder's input. -/
def buildSection (i : Nat) (sd : ProvisionalSection) : Section :=
  { id := i + 1
    type := classifySection sd
    content := sd.content.take 200
    html_elements := sd.elements
    bounds := sd.bounds
    metadata := { hasImages := sd.hasImages, hasVideos := sd.hasVideos,
                  elementCount := sd.elementCount } }

/-- `_create_section_objects` (lines 398-429): the `enumerate` counter `i`
advances over dropped sections as well. -/
def createSectionObjects : Nat → List ProvisionalSection → List Section
  | _, [] => []
  | i, sd :: rest =>
    if dropCheck sd then createSectionObjects (i + 1) rest
    else buildSection i sd :: createSectionObjects (i + 1) rest

/-- The whole core pipeline: grouping followed by the Entity Builder, as
composed by `detect_sections` (lines 51-54). -/
def detectSectionsCore (elements : List ElementRecord) : List Section :=
  createSectionObjects 0 (groupElementsIntoSections elements)

/-- A style summary that triggers none of the styling heuristics. -/
def neutralStyle : Style :=
  { backgroundColor := "rgba(0, 0, 0, 0)", marginTop := 0, marginBottom := 0,
    paddingTop := 0, paddingBottom := 0, borderTop := "0px none",
    borderBottom := "0px none", display := "block", visibility := "visible",
    position := "static" }

/-- Convenience constructor for concrete element records. -/
def mkEl (tag text markup : String) (top left width height : Q)
    (hi hv : Bool) : ElementRecord :=
  { tagName := tag, textContent := text, outerHTML := markup,
    rect := { top := top, left := left, width := width, height := height },
    styles := neutralStyle, hasImages := hi, hasVideos := hv }

/-- Scenario A, first element: top 0, height 100, text `Header nav`. -/
def elHdr : ElementRecord :=
  mkEl "header" "Header nav" "<header>Header nav</header>" 0 0 800 100
    false false

/-- Scenario A, second element: top 500, height 400, an image, `Hero banner`. -/
def elHero : ElementRecord :=
  mkEl "section" "Hero banner" "<section>Hero banner</section>" 500 0 800 400
    true false

/-- Scenario A, third element: top 950, height 80, text `Copyright 2024`. -/
def elFtr : ElementRecord :=
  mkEl "footer" "Copyright 2024" "<footer>Copyright 2024</footer>" 950 0 800 80
    false false

/-- A media-only element 90 px wide: significant, but its cluster is dropped
by the Entity Builder (width < 100). -/
def elImgNarrow : ElementRecord :=
  mkEl "div" "" "<div>imgbox</div>" 0 0 90 50 true false

/-- A 37-character text element far below `elImgNarrow`. -/
def elLongTxt : ElementRecord :=
  mkEl "p" "This text is surely long enough, yes." "<p>long</p>" 500 0 200 50
    false false

/-- Tie-breaking probe: 36 `a`s at top 0. -/
def elTieA : ElementRecord :=
  mkEl "p" "aaaaaaaaaaaaaaaaaaaaaaaaaaaaaaaaaaaa" "<p>a</p>" 0 0 200 50
    false false

/-- Tie-breaking probe: 36 `b`s, same geometry as `elTieA`. -/
def elTieB : ElementRecord :=
  mkEl "p" "bbbbbbbbbbbbbbbbbbbbbbbbbbbbbbbbbbbb" "<p>b</p>" 0 0 200 50
    false false

/-- Bounding-box probe: left 100, width 120 (right edge 220). -/
def elLeftAnchor : ElementRecord :=
  mkEl "p" "Left anchored paragraph with enough text!" "<p>A4</p>" 0 100 120 50
    false false

/-- Bounding-box probe: left 0, width 120, folded below `elLeftAnchor`. -/
def elLeftZero : ElementRecord :=
  mkEl "p" "aligned left edge" "<p>B4</p>" 50 0 120 50 false false

/-- A significant element whose markup also occurs on a rejected element. -/
def elDupKeep : ElementRecord :=
  mkEl "div" "Shared markup section, long enough text." "<div>dup</div>" 0 0
    200 50 false false

/-- A filtered-out element (10 px wide) sharing `elDupKeep`'s markup. -/
def elDupSmall : ElementRecord :=
  mkEl "span" "x" "<div>dup</div>" 10 0 10 10 false false

/-- 198 consecutive spaces. -/
def spaces198 : String := String.mk (List.replicate 198 ' ')

/-- An element whose (already stripped) text is `ab`, 198 inner spaces, then
`cdefghijkl`: 210 characters, so the output truncation at 200 cuts inside the
whitespace run. -/
def elPadText : ElementRecord :=
  mkEl "p" ("ab" ++ spaces198 ++ "cdefghijkl") "<p>x7</p>" 0 0 800 50
    false false

/-- The single provisional section produced by `[elDupKeep, elDupSmall]`
(or `[elDupKeep]` alone). -/
def psKeep : ProvisionalSection :=
  { id := 1
    bounds := { top := 0, left := 0, width := 200, height := 50 }
    elements := ["<div>dup</div>"]
    elementCount := 1
    content := "Shared markup section, long enough text."
    hasImages := false
    hasVideos := false }

/-- A provisional section passing every Entity Builder threshold. -/
def psGood : ProvisionalSection :=
  { id := 1
    bounds := { top := 0, left := 0, width := 200, height := 50 }
    elements := ["<p>long</p>"]
    elementCount := 1
    content := "This text is surely long enough, yes."
    hasImages := false
    hasVideos := false }

/-- `psGood` with a different (classification-irrelevant) `id` field. -/
def psGood2 : ProvisionalSection := { psGood with id := 7 }

/-- C9: the core pipeline maps the empty input list to the empty output list
(and, being a total function, raises nothing). -/
theorem C9_empty_input : detectSectionsCore [] = [] := rfl

/-- C2 (counterexample): on exactly the three Scenario A elements the
pipeline does not return the three sections header/hero/footer that the
claim promises; the header and footer clusters fail the Clusterer's
`> 30 chars or media` freeze rule (their texts have 10 and 14 characters)
and are discarded. -/
theorem C2_scenarioA_counterexample :
    (detectSectionsCore [elHdr, elHero, elFtr]).map Section.type ≠
      ["header", "hero", "footer"] := by decide

/-- C2 (amended): on the Scenario A input the pipeline outputs exactly one
Section, classified `hero`. -/
theorem C2_scenarioA_amended :
    (detectSectionsCore [elHdr, elHero, elFtr]).map Section.type = ["hero"] :=
  by decide

/-- C1 (counterexample): with `elImgNarrow`'s cluster dropped by the Entity
Builder (width 90 < 100), the single surviving Section keeps `enumerate` id
2 — the output ids are not the contiguous sequence 1..N. -/
theorem C1_id_counterexample :
    (detectSectionsCore [elImgNarrow, elLongTxt]).map Section.id = [2] ∧
      (2 : Nat) ≠ 1 := ⟨by decide, by decide⟩

set_option maxRecDepth 40000 in
/-- C3 (counterexample): the two inputs are permutations of each other, yet
the outputs differ — both elements sit at top 0, the stable sort keeps the
input order, and the two texts are concatenated in that order. -/
theorem C3_determinism_counterexample :
    ([elTieA, elTieB].Perm [elTieB, elTieA]) ∧
      (detectSectionsCore [elTieA, elTieB]).map Section.content ≠
        (detectSectionsCore [elTieB, elTieA]).map Section.content :=
  ⟨List.Perm.swap elTieB elTieA [], by decide⟩

/-- C4 (counterexample): after `elLeftZero` (left edge 0) folds into the
section opened by `elLeftAnchor` (right edge 220), the recomputed width
covers only up to 120, so the bounds no longer cover member
`elLeftAnchor`'s right edge. -/
theorem C4_bounds_counterexample :
    (groupElementsIntoSections [elLeftAnchor, elLeftZero]).map
      (fun s => (decide (s.bounds.left + s.bounds.width <
                   elLeftAnchor.rect.left + elLeftAnchor.rect.width),
                 decide (elLeftAnchor.outerHTML ∈ s.elements))) =
      [(true, true)] := by decide

/-- C5 (counterexample): `elDupSmall` is rejected by the Significance
Filter, yet its markup string (shared verbatim with the accepted
`elDupKeep`) appears in the output `elements` list. -/
theorem C5_filter_counterexample :
    significant elDupSmall = false ∧
      elDupSmall.outerHTML = "<div>dup</div>" ∧
      (detectSectionsCore [elDupKeep, elDupSmall]).map Section.html_elements =
        [["<div>dup</div>"]] := ⟨by decide, rfl, by decide⟩

set_option maxRecDepth 100000 in
/-- C7 (counterexample): on `elPadText` the pipeline outputs a Section with
no media whose (truncated-at-200) content strips to only 2 characters —
the output Section itself does not satisfy the `strip length >= 10 or
media` condition, because truncation happens after the Builder's test. -/
theorem C7_content_counterexample :
    (detectSectionsCore [elPadText]).map
        (fun s => ((pyStrip s.content).length, s.metadata.hasImages,
                   s.metadata.hasVideos)) = [(2, false, false)] ∧
      (2 : Nat) < 10 := ⟨by decide, by decide⟩

/-- The §4.4 classification table as worded by the specification: a function
of `(content lowercased, bounds, hasImages, hasVideos)`, evaluated in the
exact priority order header, footer, hero, content, sidebar, section.
Second definition written from the spec's words, for comparison with the
source-derived `classifySection`. -/
def classifySpec (content : String) (b : Bounds) (hasImages hasVideos : Bool) :
    String :=
  let text := pyLower content
  if b.top < 200 ∧ (containsSubstr text "menu" = true ∨
      containsSubstr text "nav" = true ∨
      containsSubstr text "header" = true ∨
      containsSubstr text "navigation" = true) then "header"
  else if containsSubstr text "footer" = true ∨
      containsSubstr text "copyright" = true ∨
      containsSubstr text "privacy" = true ∨
      containsSubstr text "terms" = true then "footer"
  else if b.height > 300 ∧ (hasImages = true ∨ hasVideos = true) then "hero"
  else if content.length > 100 then "content"
  else if b.width < 300 ∧ b.height > 500 then "sidebar"
  else "section"

/-- C6: the classifier agrees with the spec's §4.4 priority table, always
returns one of the six labels, and is a pure function of
`(content, bounds, hasImages, hasVideos)`: two clusters identical on those
four fields classify identically. -/
theorem C6_classifier : ∀ sd : ProvisionalSection,
    classifySection sd =
      classifySpec sd.content sd.bounds sd.hasImages sd.hasVideos ∧
    classifySection sd ∈
      ["header", "footer", "hero", "content", "sidebar", "section"] ∧
    ∀ sd' : ProvisionalSection, sd.content = sd'.content →
      sd.bounds = sd'.bounds → sd.hasImages = sd'.hasImages →
      sd.hasVideos = sd'.hasVideos →
      classifySection sd = classifySection sd' := by
  intro sd
  refine ⟨?_, ?_, ?_⟩
  · unfold classifySection classifySpec classKeyword
    simp only [List.any_cons, List.any_nil, Bool.or_false, Bool.and_eq_true,
      Bool.or_eq_true, decide_eq_true_eq]
  · simp only [classifySection]
    split_ifs <;> simp
  · intro sd' h1 h2 h3 h4
    unfold classifySection
    rw [h1, h2, h3, h4]

/-- C6 (witness): instantiation of `C6_classifier` at `psGood` and its
id-renamed copy `psGood2`. -/
theorem C6_classifier_witness :
    (classifySection psGood =
       classifySpec psGood.content psGood.bounds psGood.hasImages
         psGood.hasVideos) ∧
    classifySection psGood ∈
      ["header", "footer", "hero", "content", "sidebar", "section"] ∧
    classifySection psGood = classifySection psGood2 := by
  have h := C6_classifier psGood
  exact ⟨h.1, h.2.1, h.2.2 psGood2 rfl rfl rfl rfl⟩

/-- An element whose width is exactly 80: it meets the Filter's `>= 80`
threshold but fails the fold re-check's strict `> 80`. -/
def elEdge : ElementRecord :=
  mkEl "div" "edge element text!" "<div>edge</div>" 50 0 80 50 false false

/-- C10: an element whose width is exactly 80 or height exactly 40 fails
the Clusterer's fold substantiality re-check (`> 80 and > 40`), so it can
never be folded into an open section: the fold leaves the section untouched,
and a clustering step that does not start a new section leaves the whole
state untouched.  Its size nevertheless passes the Filter's `>= 80 / >= 40`
test whenever the other dimension meets its threshold. -/
theorem C10_boundary : ∀ e : ElementRecord,
    Q.beq e.rect.width 80 = true ∨ Q.beq e.rect.height 40 = true →
    substantialForFold e = false ∧
    (∀ cur : ProvisionalSection, foldElement cur e = cur) ∧
    (∀ (st : ClusterState) (cur : ProvisionalSection),
      st.current = some cur → shouldStartNew cur e = false →
      clusterStep st e = st) ∧
    ((80 : Q) ≤ e.rect.width → (40 : Q) ≤ e.rect.height →
      ¬(e.rect.width < 80 ∨ e.rect.height < 40)) := by
  intro e h
  have hsub : substantialForFold e = false := by
    rcases h with h | h
    · have hw : ¬((80 : Q) < e.rect.width) := by
        rw [Q.lt_iff, (Q.beq_iff _ _).mp h]
        exact lt_irrefl _
      simp [substantialForFold, hw]
    · have hh : ¬((40 : Q) < e.rect.height) := by
        rw [Q.lt_iff, (Q.beq_iff _ _).mp h]
        exact lt_irrefl _
      simp [substantialForFold, hh]
  have hfold : ∀ cur : ProvisionalSection, foldElement cur e = cur := by
    intro cur
    simp [foldElement, hsub]
  refine ⟨hsub, hfold, ?_, ?_⟩
  · intro st cur hc hsn
    rcases st with ⟨secs, curo⟩
    simp only [ClusterState.mk.injEq] at hc ⊢
    cases hc
    simp [clusterStep, hsn, hfold]
  · intro h80 h40
    rintro (hlt | hlt)
    · exact absurd ((Q.lt_iff _ _).mp hlt)
        (not_lt.mpr ((Q.le_iff _ _).mp h80))
    · exact absurd ((Q.lt_iff _ _).mp hlt)
        (not_lt.mpr ((Q.le_iff _ _).mp h40))

/-- C10 (witness): instantiation of `C10_boundary` at `elEdge` (width
exactly 80) against the open section `psGood`. -/
theorem C10_boundary_witness :
    substantialForFold elEdge = false ∧
    foldElement psGood elEdge = psGood ∧
    clusterStep ⟨[], some psGood⟩ elEdge = ⟨[], some psGood⟩ ∧
    ¬(elEdge.rect.width < 80 ∨ elEdge.rect.height < 40) := by
  have h := C10_boundary elEdge (Or.inl (by decide))
  exact ⟨h.1, h.2.1 psGood, h.2.2.1 ⟨[], some psGood⟩ psGood rfl (by decide),
    h.2.2.2 (by decide) (by decide)⟩

/-- Every Section emitted by the Builder from index `i` onwards has id
greater than `i`. -/
theorem createSectionObjects_id_bound :
    ∀ (i : Nat) (data : List ProvisionalSection) (s : Section),
      s ∈ createSectionObjects i data → i < s.id := by
  intro i data
  induction data generalizing i with
  | nil => intro s hs; simp [createSectionObjects] at hs
  | cons sd rest ih =>
    intro s hs
    by_cases hd : dropCheck sd = true
    · rw [createSectionObjects, if_pos hd] at hs
      exact Nat.lt_of_succ_lt (ih (i + 1) s hs)
    · rw [createSectionObjects, if_neg hd] at hs
      rcases List.mem_cons.mp hs with h | h
      · rw [h]; exact Nat.lt_succ_self i
      · exact Nat.lt_of_succ_lt (ih (i + 1) s h)

/-- The ids emitted by the Builder are strictly increasing. -/
theorem createSectionObjects_id_mono :
    ∀ (i : Nat) (data : List ProvisionalSection),
      ((createSectionObjects i data).map Section.id).Pairwise (· < ·) := by
  intro i data
  induction data generalizing i with
  | nil => simp [createSectionObjects]
  | cons sd rest ih =>
    by_cases hd : dropCheck sd = true
    · rw [createSectionObjects, if_pos hd]
      exact ih (i + 1)
    · rw [createSectionObjects, if_neg hd]
      refine List.pairwise_cons.mpr ⟨?_, ih (i + 1)⟩
      intro y hy
      rcases List.mem_map.mp hy with ⟨s, hs, rfl⟩
      exact createSectionObjects_id_bound (i + 1) rest s hs

/-- With no drops, the Builder's ids are exactly `i+1, i+2, ...`. -/
theorem createSectionObjects_id_range :
    ∀ (i : Nat) (data : List ProvisionalSection),
      (∀ sd ∈ data, dropCheck sd = false) →
      (createSectionObjects i data).map Section.id =
        List.range' (i + 1) data.length := by
  intro i data
  induction data generalizing i with
  | nil => intro _; simp [createSectionObjects]
  | cons sd rest ih =>
    intro h
    have hd : dropCheck sd = false := h sd (List.mem_cons_self sd rest)
    rw [createSectionObjects, if_neg (by simp [hd])]
    simp only [List.map_cons, List.length_cons, List.range'_succ]
    rw [ih (i + 1) (fun x hx => h x (List.mem_cons_of_mem sd hx))]
    rfl

/-- Positional origin of the Builder's output: every emitted Section is
`buildSection` of a non-dropped provisional section at some input position
`j`, built with counter value `i + j` (the `enumerate` index). -/
theorem createSectionObjects_pos :
    ∀ (i : Nat) (data : List ProvisionalSection) (sec : Section),
      sec ∈ createSectionObjects i data →
      ∃ j sd, data[j]? = some sd ∧ dropCheck sd = false ∧
        sec = buildSection (i + j) sd := by
  intro i data
  induction data generalizing i with
  | nil => intro sec hs; simp [createSectionObjects] at hs
  | cons sd rest ih =>
    intro sec hs
    by_cases hd : dropCheck sd = true
    · rw [createSectionObjects, if_pos hd] at hs
      obtain ⟨j, sd', h1, h2, h3⟩ := ih (i + 1) sec hs
      refine ⟨j + 1, sd', by simpa using h1, h2, ?_⟩
      rw [h3]
      congr 1
      omega
    · rw [createSectionObjects, if_neg hd] at hs
      rcases List.mem_cons.mp hs with h | h
      · exact ⟨0, sd, by simp, (Bool.not_eq_true _) ▸ hd, by simpa using h⟩
      · obtain ⟨j, sd', h1, h2, h3⟩ := ih (i + 1) sec h
        refine ⟨j + 1, sd', by simpa using h1, h2, ?_⟩
        rw [h3]
        congr 1
        omega

/-- C1 (amended): each output Section is built from a non-dropped
provisional section at some 0-based `enumerate` position `j` of the
Builder's input and carries id `j + 1` (the counter advances over dropped
sections too, so drops leave gaps); consequently the output ids are
strictly increasing, and when no provisional section is dropped they form
the contiguous sequence 1..N. -/
theorem C1_id_amended : ∀ data : List ProvisionalSection,
    (∀ sec ∈ createSectionObjects 0 data,
      ∃ j sd, data[j]? = some sd ∧ dropCheck sd = false ∧
        sec = buildSection j sd ∧ sec.id = j + 1) ∧
    ((createSectionObjects 0 data).map Section.id).Pairwise (· < ·) ∧
    ((∀ sd ∈ data, dropCheck sd = false) →
      (createSectionObjects 0 data).map Section.id =
        List.range' 1 data.length) := by
  intro data
  refine ⟨?_, createSectionObjects_id_mono 0 data,
    fun h => createSectionObjects_id_range 0 data h⟩
  intro sec hs
  obtain ⟨j, sd, h1, h2, h3⟩ := createSectionObjects_pos 0 data sec hs
  rw [Nat.zero_add] at h3
  exact ⟨j, sd, h1, h2, h3, by rw [h3]; rfl⟩

set_option maxRecDepth 100000 in
/-- C1 (witness): instantiation of `C1_id_amended` at the drop-free input
`[psGood]`, whose single output Section is `buildSection 0 psGood`. -/
theorem C1_id_amended_witness :
    (∃ j sd, ([psGood])[j]? = some sd ∧ dropCheck sd = false ∧
      buildSection 0 psGood = buildSection j sd ∧
      (buildSection 0 psGood).id = j + 1) ∧
    ((createSectionObjects 0 [psGood]).map Section.id).Pairwise (· < ·) ∧
    (createSectionObjects 0 [psGood]).map Section.id = List.range' 1 1 := by
  have h := C1_id_amended [psGood]
  exact ⟨h.1 (buildSection 0 psGood) (by decide), h.2.1, h.2.2 (by decide)⟩

/-- C4 (amended): one fold step only expands the running bounding box
(top/left never increase, width/height never decrease), and when the element
is actually folded the new top/left are the exact minima with the element's
edges and the new box covers the just-folded element's right and bottom
edges.  Coverage of *earlier* members' right edges is not maintained — see
`C4_bounds_counterexample`. -/
theorem C4_bounds_amended : ∀ (cur : ProvisionalSection) (e : ElementRecord),
    ((foldElement cur e).bounds.top ≤ cur.bounds.top ∧
     (foldElement cur e).bounds.left ≤ cur.bounds.left ∧
     cur.bounds.width ≤ (foldElement cur e).bounds.width ∧
     cur.bounds.height ≤ (foldElement cur e).bounds.height) ∧
    (substantialForFold e = true → e.outerHTML ∉ cur.elements →
      (foldElement cur e).bounds.top = min cur.bounds.top e.rect.top ∧
      (foldElement cur e).bounds.left = min cur.bounds.left e.rect.left ∧
      e.rect.left + e.rect.width ≤
        (foldElement cur e).bounds.left + (foldElement cur e).bounds.width ∧
      e.rect.top + e.rect.height ≤
        (foldElement cur e).bounds.top + (foldElement cur e).bounds.height) := by
  intro cur e
  by_cases hs : substantialForFold e = true
  · by_cases hm : e.outerHTML ∈ cur.elements
    · have hf : foldElement cur e = cur := by simp [foldElement, hs, hm]
      rw [hf]
      exact ⟨⟨Q.le_refl _, Q.le_refl _, Q.le_refl _, Q.le_refl _⟩,
        fun _ hnm => absurd hm hnm⟩
    · have htop : (foldElement cur e).bounds.top =
          min cur.bounds.top e.rect.top := by
        simp [foldElement, hs, hm]
      have hleft : (foldElement cur e).bounds.left =
          min cur.bounds.left e.rect.left := by
        simp [foldElement, hs, hm]
      have hwidth : (foldElement cur e).bounds.width =
          max cur.bounds.width
            (e.rect.left + e.rect.width - min cur.bounds.left e.rect.left) := by
        simp [foldElement, hs, hm]
      have hheight : (foldElement cur e).bounds.height =
          max cur.bounds.height
            (e.rect.top + e.rect.height - min cur.bounds.top e.rect.top) := by
        simp [foldElement, hs, hm]
      refine ⟨⟨?_, ?_, ?_, ?_⟩, fun _ _ => ⟨htop, hleft, ?_, ?_⟩⟩
      · rw [htop]; exact Q.min_le_left _ _
      · rw [hleft]; exact Q.min_le_left _ _
      · rw [hwidth]; exact Q.le_max_left _ _
      · rw [hheight]; exact Q.le_max_left _ _
      · rw [hleft, hwidth, Q.le_iff]
        simp only [Q.val_add, Q.val_max, Q.val_sub, Q.val_min]
        have hmax := le_max_right (cur.bounds.width.val)
          (e.rect.left.val + e.rect.width.val -
            min cur.bounds.left.val e.rect.left.val)
        linarith
      · rw [htop, hheight, Q.le_iff]
        simp only [Q.val_add, Q.val_max, Q.val_sub, Q.val_min]
        have hmax := le_max_right (cur.bounds.height.val)
          (e.rect.top.val + e.rect.height.val -
            min cur.bounds.top.val e.rect.top.val)
        linarith
  · have hf : foldElement cur e = cur := by simp [foldElement, hs]
    rw [hf]
    exact ⟨⟨Q.le_refl _, Q.le_refl _, Q.le_refl _, Q.le_refl _⟩,
      fun htrue _ => absurd htrue hs⟩

/-- C4 (witness): instantiation of `C4_bounds_amended` at the open section
`psGood` and the foldable element `elLeftZero`. -/
theorem C4_bounds_amended_witness :
    ((foldElement psGood elLeftZero).bounds.top ≤ psGood.bounds.top ∧
     (foldElement psGood elLeftZero).bounds.left ≤ psGood.bounds.left ∧
     psGood.bounds.width ≤ (foldElement psGood elLeftZero).bounds.width ∧
     psGood.bounds.height ≤ (foldElement psGood elLeftZero).bounds.height) ∧
    ((foldElement psGood elLeftZero).bounds.top =
       min psGood.bounds.top elLeftZero.rect.top ∧
     (foldElement psGood elLeftZero).bounds.left =
       min psGood.bounds.left elLeftZero.rect.left ∧
     elLeftZero.rect.left + elLeftZero.rect.width ≤
       (foldElement psGood elLeftZero).bounds.left +
         (foldElement psGood elLeftZero).bounds.width ∧
     elLeftZero.rect.top + elLeftZero.rect.height ≤
       (foldElement psGood elLeftZero).bounds.top +
         (foldElement psGood elLeftZero).bounds.height) := by
  have h := C4_bounds_amended psGood elLeftZero
  exact ⟨h.1, h.2 (by decide) (by decide)⟩

/-- From a failed strict comparison to the opposite non-strict one. -/
theorem Q.le_of_not_lt {a b : Q} (h : ¬(a < b)) : b ≤ a :=
  (Q.le_iff _ _).mpr (not_lt.mp (fun hc => h ((Q.lt_iff _ _).mpr hc)))

/-- Every Section the Builder outputs is `buildSection` of a non-dropped
provisional section of its input. -/
theorem createSectionObjects_mem :
    ∀ (i : Nat) (data : List ProvisionalSection) (sec : Section),
      sec ∈ createSectionObjects i data →
      ∃ sd, sd ∈ data ∧ dropCheck sd = false ∧
        ∃ j, sec = buildSection j sd := by
  intro i data
  induction data generalizing i with
  | nil => intro sec h; simp [createSectionObjects] at h
  | cons sd rest ih =>
    intro sec h
    by_cases hd : dropCheck sd = true
    · rw [createSectionObjects, if_pos hd] at h
      obtain ⟨sd', h1, h2, h3⟩ := ih (i + 1) sec h
      exact ⟨sd', List.mem_cons_of_mem sd h1, h2, h3⟩
    · rw [createSectionObjects, if_neg hd] at h
      rcases List.mem_cons.mp h with h | h
      · exact ⟨sd, List.mem_cons_self sd rest,
          (Bool.not_eq_true _) ▸ hd, i, h⟩
      · obtain ⟨sd', h1, h2, h3⟩ := ih (i + 1) sec h
        exact ⟨sd', List.mem_cons_of_mem sd h1, h2, h3⟩

/-- Unfolding of the Builder's drop test. -/
theorem dropCheck_false_iff (sd : ProvisionalSection) :
    dropCheck sd = false ↔
      ¬(sd.bounds.height < 30) ∧ ¬(sd.bounds.width < 100) ∧
      (¬((pyStrip sd.content).length < 10) ∨ sd.hasImages = true ∨
        sd.hasVideos = true) := by
  unfold dropCheck
  simp only [Bool.or_eq_false_iff, Bool.and_eq_false_iff,
    decide_eq_false_iff_not, Bool.not_eq_false']
  tauto

set_option maxRecDepth 4000 in
/-- C7 (amended): every output Section satisfies the bounds thresholds
`height >= 30` and `width >= 100`, and originates from a provisional section
whose *pre-truncation* stripped content has length at least 10 or which has
media; the Section's own `content` is that content truncated to 200
characters (so the Section's own stripped content can be shorter — see
`C7_content_counterexample`). -/
theorem C7_thresholds_amended : ∀ (l : List ElementRecord) (sec : Section),
    sec ∈ detectSectionsCore l →
    (30 : Q) ≤ sec.bounds.height ∧ (100 : Q) ≤ sec.bounds.width ∧
    ∃ sd, sd ∈ groupElementsIntoSections l ∧
      sec.bounds = sd.bounds ∧ sec.content = sd.content.take 200 ∧
      sec.metadata.hasImages = sd.hasImages ∧
      sec.metadata.hasVideos = sd.hasVideos ∧
      (10 ≤ (pyStrip sd.content).length ∨ sd.hasImages = true ∨
        sd.hasVideos = true) := by
  intro l sec hs
  obtain ⟨sd, hmem, hdrop, j, rfl⟩ := createSectionObjects_mem 0 _ sec hs
  obtain ⟨hh, hw, hc⟩ := (dropCheck_false_iff sd).mp hdrop
  refine ⟨Q.le_of_not_lt hh, Q.le_of_not_lt hw, sd, hmem, rfl,
    by simp [buildSection], rfl, rfl, ?_⟩
  rcases hc with hc | hc | hc
  · exact Or.inl (not_lt.mp hc)
  · exact Or.inr (Or.inl hc)
  · exact Or.inr (Or.inr hc)

set_option maxRecDepth 100000 in
/-- C7 (witness): instantiation of `C7_thresholds_amended` at the
single-element input `[elDupKeep]`, whose output Section is
`buildSection 0 psKeep`. -/
theorem C7_thresholds_amended_witness :
    (30 : Q) ≤ (buildSection 0 psKeep).bounds.height ∧
    (100 : Q) ≤ (buildSection 0 psKeep).bounds.width ∧
    ∃ sd, sd ∈ groupElementsIntoSections [elDupKeep] ∧
      (buildSection 0 psKeep).bounds = sd.bounds ∧
      (buildSection 0 psKeep).content = sd.content.take 200 ∧
      (buildSection 0 psKeep).metadata.hasImages = sd.hasImages ∧
      (buildSection 0 psKeep).metadata.hasVideos = sd.hasVideos ∧
      (10 ≤ (pyStrip sd.content).length ∨ sd.hasImages = true ∨
        sd.hasVideos = true) :=
  C7_thresholds_amended [elDupKeep] (buildSection 0 psKeep) (by decide)

/-- Case analysis for one clustering step: either a new section is opened
from `e` (with the old open section frozen into `sections` when kept), or
`e` is folded into the open section. -/
theorem clusterStep_cases (st : ClusterState) (e : ElementRecord) :
    (∃ secs', (clusterStep st e).sections = secs' ∧
      (secs' = st.sections ∨
        ∃ cur, st.current = some cur ∧ secs' = st.sections ++ [cur]) ∧
      (clusterStep st e).current = some (newSection (secs'.length + 1) e)) ∨
    (∃ cur, st.current = some cur ∧
      (clusterStep st e).sections = st.sections ∧
      (clusterStep st e).current = some (foldElement cur e)) := by
  rcases st with ⟨secs, curo⟩
  cases curo with
  | none =>
    left
    exact ⟨secs, rfl, Or.inl rfl, rfl⟩
  | some cur =>
    by_cases hsn : shouldStartNew cur e = true
    · left
      by_cases hk : (decide (cur.elementCount > 0) && keepSection cur) = true
      · exact ⟨secs ++ [cur], by simp [clusterStep, hsn, hk],
          Or.inr ⟨cur, rfl, rfl⟩, by simp [clusterStep, hsn, hk]⟩
      · exact ⟨secs, by simp [clusterStep, hsn, hk], Or.inl rfl,
          by simp [clusterStep, hsn, hk]⟩
    · right
      exact ⟨cur, rfl, by simp [clusterStep, hsn], by simp [clusterStep, hsn]⟩

/-- The markup strings of a fold result come from the section or from the
folded element. -/
theorem foldElement_elements_sub (cur : ProvisionalSection)
    (e : ElementRecord) :
    ∀ m ∈ (foldElement cur e).elements, m ∈ cur.elements ∨ m = e.outerHTML := by
  intro m hm
  by_cases h1 : substantialForFold e = true
  · by_cases h2 : e.outerHTML ∈ cur.elements
    · have hf : foldElement cur e = cur := by simp [foldElement, h1, h2]
      rw [hf] at hm
      exact Or.inl hm
    · have hf : (foldElement cur e).elements =
          cur.elements ++ [e.outerHTML] := by simp [foldElement, h1, h2]
      rw [hf] at hm
      rcases List.mem_append.mp hm with h | h
      · exact Or.inl h
      · exact Or.inr (List.mem_singleton.mp h)
  · have hf : foldElement cur e = cur := by simp [foldElement, h1]
    rw [hf] at hm
    exact Or.inl hm

/-- The trailing freeze either returns the frozen sections or appends the
open one. -/
theorem finalizeCluster_cases (st : ClusterState) :
    finalizeCluster st = st.sections ∨
      ∃ cur, st.current = some cur ∧
        finalizeCluster st = st.sections ++ [cur] := by
  rcases st with ⟨secs, curo⟩
  cases curo with
  | none => exact Or.inl rfl
  | some cur =>
    by_cases hk : (decide (cur.elementCount > 0) && keepSection cur) = true
    · exact Or.inr ⟨cur, rfl, by simp [finalizeCluster, hk]⟩
    · exact Or.inl (by simp [finalizeCluster, hk])

/-- All markup strings held by a clustering state satisfy `P`. -/
def stElemsOk (P : String → Prop) (st : ClusterState) : Prop :=
  (∀ sd ∈ st.sections, ∀ m ∈ sd.elements, P m) ∧
  (∀ cur, st.current = some cur → ∀ m ∈ cur.elements, P m)

/-- One clustering step preserves `stElemsOk` when the consumed element's
markup satisfies `P`. -/
theorem clusterStep_elemsOk (P : String → Prop) (st : ClusterState)
    (e : ElementRecord) (h : stElemsOk P st) (he : P e.outerHTML) :
    stElemsOk P (clusterStep st e) := by
  rcases clusterStep_cases st e with
    ⟨secs', hsecs, hor, hcur⟩ | ⟨cur, hc, hsecs, hcur⟩
  · constructor
    · intro sd hsd m hm
      rw [hsecs] at hsd
      rcases hor with rfl | ⟨cur, hc, rfl⟩
      · exact h.1 sd hsd m hm
      · rcases List.mem_append.mp hsd with h1 | h1
        · exact h.1 sd h1 m hm
        · rw [List.mem_singleton.mp h1] at hm
          exact h.2 cur hc m hm
    · intro c hcc m hm
      rw [hcur] at hcc
      cases Option.some.inj hcc
      simp only [newSection, List.mem_singleton] at hm
      rw [hm]
      exact he
  · constructor
    · intro sd hsd m hm
      rw [hsecs] at hsd
      exact h.1 sd hsd m hm
    · intro c hcc m hm
      rw [hcur] at hcc
      cases Option.some.inj hcc
      rcases foldElement_elements_sub cur e m hm with h1 | rfl
      · exact h.2 cur hc m h1
      · exact he

/-- The clustering fold preserves `stElemsOk` over a whole element list. -/
theorem foldl_clusterStep_elemsOk (P : String → Prop) :
    ∀ (es : List ElementRecord) (st : ClusterState),
      stElemsOk P st → (∀ e ∈ es, P e.outerHTML) →
      stElemsOk P (es.foldl clusterStep st) := by
  intro es
  induction es with
  | nil => intro st h _; exact h
  | cons e es ih =>
    intro st h he
    exact ih (clusterStep st e)
      (clusterStep_elemsOk P st e h (he e (List.mem_cons_self e es)))
      (fun x hx => he x (List.mem_cons_of_mem e hx))

/-- After the trailing freeze, all frozen sections' markup satisfies `P`. -/
theorem finalizeCluster_elemsOk (P : String → Prop) (st : ClusterState)
    (h : stElemsOk P st) :
    ∀ sd ∈ finalizeCluster st, ∀ m ∈ sd.elements, P m := by
  rcases finalizeCluster_cases st with heq | ⟨cur, hc, heq⟩
  · rw [heq]; exact h.1
  · rw [heq]
    intro sd hsd
    rcases List.mem_append.mp hsd with h1 | h1
    · exact h.1 sd h1
    · rw [List.mem_singleton.mp h1]
      exact h.2 cur hc

/-- The merge scan only rearranges markup strings; it introduces none. -/
theorem mergeLoop_elemsOk (P : String → Prop) :
    ∀ (rest : List ProvisionalSection) (cur : ProvisionalSection),
      (∀ m ∈ cur.elements, P m) →
      (∀ sd ∈ rest, ∀ m ∈ sd.elements, P m) →
      ∀ sd ∈ mergeLoop cur rest, ∀ m ∈ sd.elements, P m := by
  intro rest
  induction rest with
  | nil =>
    intro cur hc _ sd hsd
    have hcur : sd = cur := by simpa [mergeLoop] using hsd
    rw [hcur]
    exact hc
  | cons nxt rest' ih =>
    intro cur hc hr sd hsd
    unfold mergeLoop at hsd
    by_cases hg : nxt.bounds.top - (cur.bounds.top + cur.bounds.height) < 30
    · rw [if_pos hg] at hsd
      refine ih (mergeTwo cur nxt) ?_
        (fun x hx => hr x (List.mem_cons_of_mem nxt hx)) sd hsd
      intro m hm
      rcases List.mem_append.mp hm with h1 | h1
      · exact hc m h1
      · exact hr nxt (List.mem_cons_self nxt rest') m h1
    · rw [if_neg hg] at hsd
      rcases List.mem_cons.mp hsd with rfl | h1
      · exact hc
      · exact ih nxt (hr nxt (List.mem_cons_self nxt rest'))
          (fun x hx => hr x (List.mem_cons_of_mem nxt hx)) sd h1

/-- The merge pass over a whole section list introduces no markup. -/
theorem mergeCloseSections_elemsOk (P : String → Prop)
    (data : List ProvisionalSection)
    (h : ∀ sd ∈ data, ∀ m ∈ sd.elements, P m) :
    ∀ sd ∈ mergeCloseSections data, ∀ m ∈ sd.elements, P m := by
  cases data with
  | nil => simp [mergeCloseSections]
  | cons s rest =>
    exact mergeLoop_elemsOk P rest s (h s (List.mem_cons_self s rest))
      (fun x hx => h x (List.mem_cons_of_mem s hx))

/-- Every markup string held by any section of the grouping output is the
markup of some input element that passed the Significance Filter. -/
theorem groupElementsIntoSections_elems_origin :
    ∀ (l : List ElementRecord), ∀ sd ∈ groupElementsIntoSections l,
      ∀ m ∈ sd.elements,
        ∃ e, e ∈ l ∧ significant e = true ∧ e.outerHTML = m := by
  intro l
  by_cases hl : l.isEmpty = true
  · simp [groupElementsIntoSections, hl]
  · by_cases hsig : (l.filter significant).isEmpty = true
    · simp [groupElementsIntoSections, hl, hsig]
    · have hmain : groupElementsIntoSections l =
          mergeCloseSections (finalizeCluster
            ((List.insertionSort topOrder (l.filter significant)).foldl
              clusterStep ⟨[], none⟩)) := by
        simp [groupElementsIntoSections, hl, hsig]
      rw [hmain]
      have hsorted : ∀ e ∈ List.insertionSort topOrder (l.filter significant),
          (fun m => ∃ e', e' ∈ l ∧ significant e' = true ∧ e'.outerHTML = m)
            e.outerHTML := by
        intro e he
        have h1 : e ∈ l.filter significant :=
          (List.perm_insertionSort topOrder _).mem_iff.mp he
        have h2 := List.mem_filter.mp h1
        exact ⟨e, h2.1, h2.2, rfl⟩
      exact mergeCloseSections_elemsOk _ _
        (finalizeCluster_elemsOk _ _
          (foldl_clusterStep_elemsOk _ _ ⟨[], none⟩
            ⟨by simp, by simp⟩ hsorted))

/-- C5 (amended): every element passing the Significance Filter satisfies
`width >= 80`, `height >= 40`, has stripped text or media, with stripped
length at least 10 when text is the only signal; and every markup string in
any output Section's `elements` list is the markup of some input element
that passed the Filter.  (The claim's stronger reading — a rejected
element's markup string never appears — fails when an accepted element
carries the identical markup string: see `C5_filter_counterexample`.) -/
theorem C5_filter_amended :
    (∀ e : ElementRecord, significant e = true →
      (80 : Q) ≤ e.rect.width ∧ (40 : Q) ≤ e.rect.height ∧
      (pyStrip e.textContent ≠ "" ∨ e.hasImages = true ∨
        e.hasVideos = true) ∧
      (e.hasImages = false → e.hasVideos = false →
        10 ≤ (pyStrip e.textContent).length)) ∧
    (∀ (l : List ElementRecord) (sec : Section) (m : String),
      sec ∈ detectSectionsCore l → m ∈ sec.html_elements →
      ∃ e, e ∈ l ∧ significant e = true ∧ e.outerHTML = m) := by
  constructor
  · intro e h
    unfold significant at h
    split_ifs at h with h1 h2 h3
    push_neg at h1
    refine ⟨Q.le_of_not_lt h1.1, Q.le_of_not_lt h1.2, ?_, ?_⟩
    · by_cases hi : e.hasImages = true
      · exact Or.inr (Or.inl hi)
      · by_cases hv : e.hasVideos = true
        · exact Or.inr (Or.inr hv)
        · refine Or.inl ?_
          intro habs
          exact h2 ⟨habs, by simpa using hi, by simpa using hv⟩
    · intro hi hv
      by_contra hlen
      exact h3 ⟨by omega, by simp [hi], by simp [hv]⟩
  · intro l sec m hsec hm
    obtain ⟨sd, hsd, _, j, rfl⟩ := createSectionObjects_mem 0 _ sec hsec
    exact groupElementsIntoSections_elems_origin l sd hsd m hm

set_option maxRecDepth 100000 in
/-- C5 (witness): instantiation of `C5_filter_amended` at `elDupKeep` and at
the run on `[elDupKeep, elDupSmall]` whose output Section is
`buildSection 0 psKeep`. -/
theorem C5_filter_amended_witness :
    ((80 : Q) ≤ elDupKeep.rect.width ∧ (40 : Q) ≤ elDupKeep.rect.height ∧
     (pyStrip elDupKeep.textContent ≠ "" ∨ elDupKeep.hasImages = true ∨
       elDupKeep.hasVideos = true) ∧
     (elDupKeep.hasImages = false → elDupKeep.hasVideos = false →
       10 ≤ (pyStrip elDupKeep.textContent).length)) ∧
    (∃ e, e ∈ [elDupKeep, elDupSmall] ∧ significant e = true ∧
      e.outerHTML = "<div>dup</div>") := by
  refine ⟨C5_filter_amended.1 elDupKeep (by decide), ?_⟩
  exact C5_filter_amended.2 [elDupKeep, elDupSmall] (buildSection 0 psKeep)
    "<div>dup</div>" (by decide) (by decide)

/-- A fold either leaves the section's top unchanged or takes the minimum
with the element's top. -/
theorem foldElement_top_cases (cur : ProvisionalSection) (e : ElementRecord) :
    (foldElement cur e).bounds.top = cur.bounds.top ∨
    (foldElement cur e).bounds.top = min cur.bounds.top e.rect.top := by
  by_cases h1 : substantialForFold e = true
  · by_cases h2 : e.outerHTML ∈ cur.elements
    · left; simp [foldElement, h1, h2]
    · right; simp [foldElement, h1, h2]
  · left; simp [foldElement, h1]

/-- The tops of all sections a clustering state holds, frozen ones first,
then the open one. -/
def allTops (st : ClusterState) : List Q :=
  st.sections.map (fun sd => sd.bounds.top) ++
    (match st.current with
     | some c => [c.bounds.top]
     | none => [])

theorem allTops_some {st : ClusterState} {cur : ProvisionalSection}
    (hc : st.current = some cur) :
    allTops st = st.sections.map (fun sd => sd.bounds.top) ++
      [cur.bounds.top] := by
  unfold allTops
  rw [hc]

/-- Shape of the tops after one clustering step, when every held top is at
most the consumed element's top: some sublist of the old tops followed by
one new top that dominates the sublist and is at most the element's top. -/
theorem clusterStep_allTops (st : ClusterState) (e : ElementRecord)
    (hPW : (allTops st).Pairwise (· ≤ ·))
    (hub : ∀ t ∈ allTops st, t ≤ e.rect.top) :
    ∃ S t, allTops (clusterStep st e) = S ++ [t] ∧ S.Sublist (allTops st) ∧
      (∀ s ∈ S, s ≤ t) ∧ t ≤ e.rect.top := by
  rcases clusterStep_cases st e with
    ⟨secs', hsecs, hor, hcur⟩ | ⟨cur, hc, hsecs, hcur⟩
  · refine ⟨secs'.map (fun sd => sd.bounds.top), e.rect.top, ?_, ?_, ?_,
      Q.le_refl _⟩
    · unfold allTops
      rw [hsecs, hcur]
      rfl
    · rcases hor with rfl | ⟨cur, hc, rfl⟩
      · exact List.sublist_append_left _ _
      · rw [allTops_some hc, List.map_append]
        exact List.Sublist.refl _
    · intro s hs
      apply hub
      rcases hor with rfl | ⟨cur, hc, rfl⟩
      · unfold allTops
        exact List.mem_append_left _ hs
      · rw [List.map_append] at hs
        rw [allTops_some hc]
        simpa using hs
  · have hcross : ∀ s ∈ st.sections.map (fun sd => sd.bounds.top),
        s ≤ cur.bounds.top := by
      intro s hs
      have := (List.pairwise_append.mp (by rwa [allTops_some hc] at hPW)).2.2
      exact this s hs cur.bounds.top (List.mem_singleton_self _)
    have hce : cur.bounds.top ≤ e.rect.top := by
      apply hub
      rw [allTops_some hc]
      exact List.mem_append_right _ (List.mem_singleton_self _)
    refine ⟨st.sections.map (fun sd => sd.bounds.top),
      (foldElement cur e).bounds.top, ?_, ?_, ?_, ?_⟩
    · unfold allTops
      rw [hsecs, hcur]
    · unfold allTops
      exact List.sublist_append_left _ _
    · intro s hs
      rcases foldElement_top_cases cur e with h | h
      · rw [h]; exact hcross s hs
      · rw [h]
        refine Q.le_min (hcross s hs) ?_
        apply hub
        rw [allTops_some hc]
        exact List.mem_append_left _ hs
    · rcases foldElement_top_cases cur e with h | h
      · rw [h]; exact hce
      · rw [h]; exact Q.le_trans (Q.min_le_left _ _) hce

/-- Over a top-sorted element list, the clustering fold keeps the held tops
in non-decreasing order. -/
theorem foldl_clusterStep_allTops :
    ∀ (es : List ElementRecord) (st : ClusterState),
      es.Pairwise topOrder →
      (allTops st).Pairwise (· ≤ ·) →
      (∀ t ∈ allTops st, ∀ e ∈ es, t ≤ e.rect.top) →
      (allTops (es.foldl clusterStep st)).Pairwise (· ≤ ·) := by
  intro es
  induction es with
  | nil => intro st _ hPW _; exact hPW
  | cons e es ih =>
    intro st hsort hPW hub
    have hub_e : ∀ t ∈ allTops st, t ≤ e.rect.top :=
      fun t ht => hub t ht e (List.mem_cons_self e es)
    obtain ⟨S, t, heq, hsub, hcross, hte⟩ := clusterStep_allTops st e hPW hub_e
    have hPW' : (allTops (clusterStep st e)).Pairwise (· ≤ ·) := by
      rw [heq]
      refine List.pairwise_append.mpr ⟨hPW.sublist hsub,
        List.pairwise_singleton _ _, ?_⟩
      intro a ha b hb
      rw [List.mem_singleton.mp hb]
      exact hcross a ha
    have hub' : ∀ t' ∈ allTops (clusterStep st e), ∀ e' ∈ es,
        t' ≤ e'.rect.top := by
      intro t' ht' e' he'
      rw [heq] at ht'
      rcases List.mem_append.mp ht' with h | h
      · exact hub t' (hsub.subset h) e' (List.mem_cons_of_mem e he')
      · rw [List.mem_singleton.mp h]
        exact Q.le_trans hte ((List.pairwise_cons.mp hsort).1 e' he')
    exact ih (clusterStep st e) (List.pairwise_cons.mp hsort).2 hPW' hub'

/-- The tops of the trailing-freeze output are a sublist of the held tops. -/
theorem finalizeCluster_tops_sublist (st : ClusterState) :
    ((finalizeCluster st).map (fun sd => sd.bounds.top)).Sublist
      (allTops st) := by
  rcases finalizeCluster_cases st with heq | ⟨cur, hc, heq⟩
  · rw [heq]
    unfold allTops
    exact List.sublist_append_left _ _
  · rw [heq, allTops_some hc, List.map_append]
    exact List.Sublist.refl _

/-- Merging preserves relative order: the output tops are a sublist of the
input tops (each merged run keeps its head's top). -/
theorem mergeLoop_tops_sublist :
    ∀ (rest : List ProvisionalSection) (cur : ProvisionalSection),
      ((mergeLoop cur rest).map (fun sd => sd.bounds.top)).Sublist
        (cur.bounds.top :: rest.map (fun sd => sd.bounds.top)) := by
  intro rest
  induction rest with
  | nil => intro cur; simp [mergeLoop]
  | cons nxt rest' ih =>
    intro cur
    unfold mergeLoop
    by_cases hg : nxt.bounds.top - (cur.bounds.top + cur.bounds.height) < 30
    · rw [if_pos hg]
      have h1 := ih (mergeTwo cur nxt)
      have h2 : (mergeTwo cur nxt).bounds.top = cur.bounds.top := rfl
      rw [h2] at h1
      refine h1.trans ?_
      simp only [List.map_cons]
      exact (List.sublist_cons_self _ _).cons₂ _
    · rw [if_neg hg]
      simp only [List.map_cons]
      exact (ih nxt).cons₂ _

/-- `_merge_close_sections` version of `mergeLoop_tops_sublist`. -/
theorem mergeCloseSections_tops_sublist (data : List ProvisionalSection) :
    ((mergeCloseSections data).map (fun sd => sd.bounds.top)).Sublist
      (data.map (fun sd => sd.bounds.top)) := by
  cases data with
  | nil => simp [mergeCloseSections]
  | cons s rest =>
    have := mergeLoop_tops_sublist rest s
    simpa [mergeCloseSections] using this

/-- The Builder preserves relative order: output tops are a sublist of the
input tops. -/
theorem createSectionObjects_tops_sublist :
    ∀ (i : Nat) (data : List ProvisionalSection),
      ((createSectionObjects i data).map (fun s => s.bounds.top)).Sublist
        (data.map (fun sd => sd.bounds.top)) := by
  intro i data
  induction data generalizing i with
  | nil => simp [createSectionObjects]
  | cons sd rest ih =>
    by_cases hd : dropCheck sd = true
    · rw [createSectionObjects, if_pos hd]
      exact (ih (i + 1)).trans (List.sublist_cons_self _ _)
    · rw [createSectionObjects, if_neg hd]
      simp only [List.map_cons]
      exact (ih (i + 1)).cons₂ _

/-- C8: the output Section sequence is ordered top-to-bottom — successive
`bounds.top` values are non-decreasing (not necessarily strictly) — and the
Merger preserves the relative order of the sections it receives without
re-sorting (its output tops are a sublist of its input tops). -/
theorem C8_order :
    (∀ l : List ElementRecord,
      ((detectSectionsCore l).map (fun s => s.bounds.top)).Pairwise
        (· ≤ ·)) ∧
    (∀ data : List ProvisionalSection,
      ((mergeCloseSections data).map (fun sd => sd.bounds.top)).Sublist
        (data.map (fun sd => sd.bounds.top))) := by
  refine ⟨?_, mergeCloseSections_tops_sublist⟩
  intro l
  by_cases hl : l.isEmpty = true
  · simp [detectSectionsCore, groupElementsIntoSections, hl,
      createSectionObjects]
  · by_cases hsig : (l.filter significant).isEmpty = true
    · simp [detectSectionsCore, groupElementsIntoSections, hl, hsig,
        createSectionObjects]
    · have hmain : groupElementsIntoSections l =
          mergeCloseSections (finalizeCluster
            ((List.insertionSort topOrder (l.filter significant)).foldl
              clusterStep ⟨[], none⟩)) := by
        simp [groupElementsIntoSections, hl, hsig]
      have hsort : (List.insertionSort topOrder
          (l.filter significant)).Pairwise topOrder :=
        List.sorted_insertionSort topOrder (l.filter significant)
      have hPWf := foldl_clusterStep_allTops _ ⟨[], none⟩ hsort
        (by simp [allTops]) (by simp [allTops])
      have hchain : ((detectSectionsCore l).map
          (fun s => s.bounds.top)).Sublist
          (allTops ((List.insertionSort topOrder (l.filter significant)).foldl
            clusterStep ⟨[], none⟩)) := by
        unfold detectSectionsCore
        refine (createSectionObjects_tops_sublist 0 _).trans ?_
        rw [hmain]
        exact (mergeCloseSections_tops_sublist _).trans
          (finalizeCluster_tops_sublist _)
      exact hPWf.sublist hchain

/-- Value-inequality of tops is symmetric. -/
theorem topNe_symm {x y : ElementRecord}
    (h : Q.beq x.rect.top y.rect.top = false) :
    Q.beq y.rect.top x.rect.top = false := by
  cases hxy : Q.beq y.rect.top x.rect.top
  · rfl
  · rw [(Q.beq_iff _ _).mpr ((Q.beq_iff _ _).mp hxy).symm] at h
    exact Bool.noConfusion h

/-- Two permuted lists of elements with pairwise value-distinct tops have
the same top-sorted order. -/
theorem insertionSort_eq_of_perm (f₁ f₂ : List ElementRecord)
    (hfp : f₁.Perm f₂)
    (hne : f₁.Pairwise (fun a b => Q.beq a.rect.top b.rect.top = false)) :
    List.insertionSort topOrder f₁ = List.insertionSort topOrder f₂ := by
  have hsymm : ∀ {x y : ElementRecord},
      Q.beq x.rect.top y.rect.top = false →
      Q.beq y.rect.top x.rect.top = false := fun h => topNe_symm h
  have hperm : (List.insertionSort topOrder f₁).Perm
      (List.insertionSort topOrder f₂) :=
    (List.perm_insertionSort topOrder f₁).trans
      (hfp.trans (List.perm_insertionSort topOrder f₂).symm)
  have hne₁ : (List.insertionSort topOrder f₁).Pairwise
      (fun a b => Q.beq a.rect.top b.rect.top = false) :=
    ((List.perm_insertionSort topOrder f₁).pairwise_iff hsymm).mpr hne
  have hne₂ : (List.insertionSort topOrder f₂).Pairwise
      (fun a b => Q.beq a.rect.top b.rect.top = false) :=
    ((List.perm_insertionSort topOrder f₂).pairwise_iff hsymm).mpr
      ((hfp.pairwise_iff hsymm).mp hne)
  have toStrict : ∀ {x y : ElementRecord},
      topOrder x y ∧ Q.beq x.rect.top y.rect.top = false →
      x.rect.top < y.rect.top := by
    intro x y hxy
    rw [Q.lt_iff]
    refine lt_of_le_of_ne ((Q.le_iff _ _).mp hxy.1) ?_
    intro heq
    rw [(Q.beq_iff _ _).mpr heq] at hxy
    exact Bool.noConfusion hxy.2
  have hst₁ : (List.insertionSort topOrder f₁).Pairwise
      (fun a b : ElementRecord => a.rect.top < b.rect.top) :=
    ((List.sorted_insertionSort topOrder f₁).and hne₁).imp toStrict
  have hst₂ : (List.insertionSort topOrder f₂).Pairwise
      (fun a b : ElementRecord => a.rect.top < b.rect.top) :=
    ((List.sorted_insertionSort topOrder f₂).and hne₂).imp toStrict
  haveI : IsAntisymm ElementRecord
      (fun a b : ElementRecord => a.rect.top < b.rect.top) := ⟨by
    intro x y h1 h2
    exact absurd ((Q.lt_iff _ _).mp h2)
      (not_lt.mpr ((Q.lt_iff _ _).mp h1).le)⟩
  exact List.eq_of_perm_of_sorted hperm hst₁ hst₂

/-- C3 (amended): the core pipeline is insensitive to the input order
provided the significant elements have pairwise value-distinct `rect.top`:
two permuted inputs then produce identical output Section sequences.
(Without that proviso the stable sort breaks top-ties by input order and the
outputs can differ — see `C3_determinism_counterexample`.) -/
theorem C3_determinism_amended :
    ∀ (l₁ l₂ : List ElementRecord), l₁.Perm l₂ →
      ((l₁.filter significant).Pairwise
        (fun a b => Q.beq a.rect.top b.rect.top = false)) →
      detectSectionsCore l₁ = detectSectionsCore l₂ := by
  intro l₁ l₂ hp hne
  unfold detectSectionsCore
  congr 1
  cases l₁ with
  | nil =>
    rw [hp.symm.eq_nil]
  | cons a t =>
    obtain ⟨b, u, rfl⟩ : ∃ b u, l₂ = b :: u := by
      cases l₂ with
      | nil => exact absurd hp.eq_nil (by simp)
      | cons b u => exact ⟨b, u, rfl⟩
    have hfp : ((a :: t).filter significant).Perm
        ((b :: u).filter significant) := hp.filter significant
    by_cases hsig : ((a :: t).filter significant).isEmpty = true
    · have hsig₂ : ((b :: u).filter significant).isEmpty = true := by
        rw [List.isEmpty_iff] at hsig ⊢
        rw [hsig] at hfp
        exact hfp.symm.eq_nil
      simp [groupElementsIntoSections, hsig, hsig₂]
    · have hsig₂ : ¬((b :: u).filter significant).isEmpty = true := by
        intro habs
        rw [List.isEmpty_iff] at habs hsig
        rw [habs] at hfp
        exact hsig hfp.eq_nil
      have hsorted := insertionSort_eq_of_perm _ _ hfp hne
      have h₁ : groupElementsIntoSections (a :: t) =
          mergeCloseSections (finalizeCluster
            ((List.insertionSort topOrder ((a :: t).filter significant)).foldl
              clusterStep ⟨[], none⟩)) := by
        simp [groupElementsIntoSections, hsig]
      have h₂ : groupElementsIntoSections (b :: u) =
          mergeCloseSections (finalizeCluster
            ((List.insertionSort topOrder ((b :: u).filter significant)).foldl
              clusterStep ⟨[], none⟩)) := by
        simp [groupElementsIntoSections, hsig₂]
      rw [h₁, h₂, hsorted]

/-- C3 (witness): instantiation of `C3_determinism_amended` at the swapped
inputs `[elImgNarrow, elLongTxt]` / `[elLongTxt, elImgNarrow]`, whose
significant elements sit at distinct tops 0 and 500. -/
theorem C3_determinism_amended_witness :
    detectSectionsCore [elImgNarrow, elLongTxt] =
      detectSectionsCore [elLongTxt, elImgNarrow] :=
  C3_determinism_amended [elImgNarrow, elLongTxt] [elLongTxt, elImgNarrow]
    (List.Perm.swap elLongTxt elImgNarrow []) (by decide)
